import Mathlib

/-!
Shallow embedding of the serverless-staking resilience core:
the Redis-backed record/listing caches (src/utils/cache.ts), the
stake read/write orchestration (src/stake/service.ts), the rate
limiter (src/utils/rate-limit.ts) and the backing-store client with
retry (src/db-service.ts).

Modelling conventions:
- The Redis keyspace is split by key shape into structured fields of
  `RedisState` (the key formats `stake:{id}`, `user:{u}:stakes`,
  `user:{u}:stake_ids`, `user:{u}:stakes:page:{p}:limit:{l}` and
  `ratelimit:{identifier}:{subject}` are prefix-disjoint, so this is a
  faithful renaming of the flat string keyspace).
- Clocks are explicit: every operation takes `now` in milliseconds.
  `expire key seconds` is recorded as the absolute instant
  `now + seconds * 1000`; a key with an expiry is evicted (reads see it
  as absent) once the clock has passed that instant, which is Redis's
  lazy-expiration semantics.
- A failing Redis call is injected through boolean oracles
  (`failAt attempt`); a failed attempt leaves the store unchanged and
  the code's catch/retry structure decides what happens next, exactly
  mirroring the try/catch blocks of the source. `console.error`
  logging has no observable effect and is not modelled.
- JavaScript number/string truthiness is modelled where the source
  relies on it (`userId ? ... : ...`, `config.staleTime` and the
  `||` chain for the client IP).
-/

namespace Staking

/-- A stake row as stored in the relational backing store
(`db-service.ts`, `interface Stake`).  Timestamps are naturals
(milliseconds since epoch). -/
structure Stake where
  id : Nat
  amount : Int
  period : Nat
  userId : Nat
  createdAt : Nat
deriving DecidableEq, Repr

/-- The Redis hash written by `cacheStake`: the stake's fields plus the
`_cached_at` metadata field (`Date.now()` at write time). -/
structure CachedStakeHash where
  stake : Stake
  cachedAt : Nat
deriving DecidableEq, Repr

/-- `CacheConfig` from `src/utils/cache.ts`. -/
structure CacheConfig where
  ttl : Nat
  staleWhileRevalidate : Bool
  staleTime : Option Nat
deriving DecidableEq, Repr

/-- `defaultCacheConfigs.stake`: 300s ttl, stale-while-revalidate with
an extra 300s of stale time. -/
def stakeCacheConfig : CacheConfig := ⟨300, true, some 300⟩

/-- `defaultCacheConfigs.user`. -/
def userCacheConfig : CacheConfig := ⟨600, true, some 600⟩

/-- `defaultCacheConfigs.shortLived`. -/
def shortLivedCacheConfig : CacheConfig := ⟨60, false, none⟩

/-- `MAX_CACHE_RETRIES` from `src/utils/cache.ts`. -/
def MAX_CACHE_RETRIES : Nat := 2

/-- Key of a cached listing page:
`user:{userId}:stakes:page:{page}:limit:{limit}`. -/
abbrev PageKey := Nat × Nat × Nat

/-- The subject part of a rate-limit key: `user:{id}` or
`ip:{origin}`. -/
inductive Subject where
  | user (id : Int)
  | ip (origin : String)
deriving DecidableEq, Repr

/-- Key of a rate counter: `ratelimit:{identifier}:{subject}`. -/
abbrev RLKey := String × Subject

/-- The Redis keyspace, split by key shape.  Each `...Exp` field holds
the absolute expiry instant (ms) of the corresponding key, `none`
meaning no TTL is set. -/
structure RedisState where
  stakeHash : Nat → Option CachedStakeHash
  stakeExp : Nat → Option Nat
  counter : Nat → Nat
  stakeIds : Nat → List Nat
  pageList : PageKey → Option (List Nat)
  pageExp : PageKey → Option Nat
  rlCount : RLKey → Option Nat
  rlExp : RLKey → Option Nat

/-- The empty Redis database. -/
def emptyRedis : RedisState :=
  ⟨fun _ => none, fun _ => none, fun _ => 0, fun _ => [],
   fun _ => none, fun _ => none, fun _ => none, fun _ => none⟩

/-- Lazy expiration: a key whose expiry instant has been passed by the
clock reads as absent. -/
def expiredAt (now : Nat) : Option Nat → Bool
  | none => false
  | some e => decide (e < now)

/-- The expiry (seconds) chosen by `cacheStake`/`cacheStakes`:
`config.staleWhileRevalidate && config.staleTime` (JS truthiness: a
missing or zero `staleTime` falls back to the plain ttl). -/
def cacheExpireSeconds (cfg : CacheConfig) : Nat :=
  match cfg.staleTime with
  | some st => if cfg.staleWhileRevalidate && st != 0 then cfg.ttl + st else cfg.ttl
  | none => cfg.ttl

/-- The `for (attempt = 0; attempt <= MAX_CACHE_RETRIES; attempt++)`
retry loop shared by the cache helpers: each attempt either succeeds
(yielding `good`) or fails; on the last failing attempt the error is
logged and absorbed (yielding `bad`).  Returns the result together
with the number of attempts made.  `fuel` is the number of attempts
remaining, so the loop is entered with `fuel = MAX_CACHE_RETRIES + 1`
and `attempt = 0`. -/
def attemptLoop (failAt : Nat → Bool) (good bad : β) : Nat → Nat → β × Nat
  | 0, attempt => (bad, attempt)
  | fuel + 1, attempt =>
    if failAt attempt then
      if fuel = 0 then (bad, attempt + 1)
      else attemptLoop failAt good bad fuel (attempt + 1)
    else (good, attempt + 1)

/-- The successful body of one `cacheStake` attempt: pipeline
(`hset` of the stake fields plus `_cached_at = now`, then `expire`),
followed by the `lpos`/`lpush` idempotent add of the stake id to
`user:{userId}:stake_ids`. -/
def cacheStakeWrites (now : Nat) (cfg : CacheConfig) (stake : Stake) (s : RedisState) : RedisState :=
  { s with
    stakeHash := Function.update s.stakeHash stake.id (some ⟨stake, now⟩),
    stakeExp := Function.update s.stakeExp stake.id (some (now + cacheExpireSeconds cfg * 1000)),
    stakeIds :=
      if (s.stakeIds stake.userId).contains stake.id then s.stakeIds
      else Function.update s.stakeIds stake.userId (stake.id :: s.stakeIds stake.userId) }

/-- `cacheStake` (src/utils/cache.ts): the pipelined write with the
bounded retry loop; a still-failing last attempt is logged and
absorbed, never an error. -/
def cacheStakeFn (failAt : Nat → Bool) (now : Nat) (cfg : CacheConfig) (stake : Stake)
    (s : RedisState) : RedisState × Nat :=
  attemptLoop failAt (cacheStakeWrites now cfg stake s) s (MAX_CACHE_RETRIES + 1) 0

/-- One successful `hgetall`-based read of `stake:{stakeId}`
(`getCachedStake` body): absent (or evicted) data reads as
`(none, false)`; otherwise staleness is
`staleWhileRevalidate && (now - cachedAt > ttl * 1000)`
(`_cached_at` is always written by `cacheStake`). -/
def readCachedStake (now : Nat) (cfg : CacheConfig) (stakeId : Nat) (s : RedisState) :
    Option Stake × Bool :=
  match s.stakeHash stakeId with
  | none => (none, false)
  | some h =>
    if expiredAt now (s.stakeExp stakeId) then (none, false)
    else (some h.stake, cfg.staleWhileRevalidate && decide (now - h.cachedAt > cfg.ttl * 1000))

/-- `getCachedStake` (src/utils/cache.ts): the read with the bounded
retry loop; exhausted retries degrade to `(none, false)` (a miss),
never an error. -/
def getCachedStakeFn (failAt : Nat → Bool) (now : Nat) (cfg : CacheConfig) (stakeId : Nat)
    (s : RedisState) : (Option Stake × Bool) × Nat :=
  attemptLoop failAt (readCachedStake now cfg stakeId s) (none, false) (MAX_CACHE_RETRIES + 1) 0

/-- The `Promise.all(stakes.map(cacheStake))` step of `cacheStakes`,
modelled as the sequential composition of the independent per-record
writes. -/
def cacheStakeList (failAt : Nat → Bool) (now : Nat) (cfg : CacheConfig) :
    List Stake → RedisState → RedisState
  | [], s => s
  | st :: rest, s => cacheStakeList failAt now cfg rest (cacheStakeFn failAt now cfg st s).1

/-- The successful body of one `cacheStakes` page-pipeline attempt:
`del pageKey`, then — only when there are ids — `rpush` of the ids and
`expire`. -/
def cachePageWrites (now : Nat) (cfg : CacheConfig) (userId page limit : Nat) (ids : List Nat)
    (s : RedisState) : RedisState :=
  if ids = [] then
    { s with
      pageList := Function.update s.pageList (userId, page, limit) none,
      pageExp := Function.update s.pageExp (userId, page, limit) none }
  else
    { s with
      pageList := Function.update s.pageList (userId, page, limit) (some ids),
      pageExp := Function.update s.pageExp (userId, page, limit)
        (some (now + cacheExpireSeconds cfg * 1000)) }

/-- `cacheStakes` (src/utils/cache.ts): cache every stake, then write
the page's id list under its own bounded retry loop (failures logged
and absorbed). -/
def cacheStakesFn (recFail pageFail : Nat → Bool) (now : Nat) (stakes : List Stake)
    (userId page limit : Nat) (cfg : CacheConfig) (s : RedisState) : RedisState × Nat :=
  let s1 := cacheStakeList recFail now cfg stakes s
  attemptLoop pageFail
    (cachePageWrites now cfg userId page limit (stakes.map (fun st => st.id)) s1) s1
    (MAX_CACHE_RETRIES + 1) 0

/-- `lrange key 0 (limit - 1)`: with `limit = 0` the stop index is
`-1`, i.e. the whole list; otherwise the first `limit` elements. -/
def lrangeStop (l : List Nat) (limit : Nat) : List Nat :=
  if limit = 0 then l else l.take limit

/-- The `redis.lrange(pageKey, 0, limit - 1)` read in `getStakes`,
honouring lazy expiration of the page key. -/
def lrangePage (s : RedisState) (now userId page limit : Nat) : List Nat :=
  if expiredAt now (s.pageExp (userId, page, limit)) then []
  else lrangeStop ((s.pageList (userId, page, limit)).getD []) limit

/-- The one error the store client surfaces (`DatabaseError` in
`src/utils/errors.ts`, thrown after exhausted retries). -/
inductive DbError where
  | databaseError
deriving DecidableEq, Repr

/-- The relational store: rows newest-first (they are returned
`ORDER BY created_at DESC`, and in this model insertion order refines
that order), plus the next `SERIAL` id. -/
structure DbState where
  stakes : List Stake
  nextId : Nat
deriving DecidableEq, Repr

/-- The effect of a successful `INSERT INTO stakes ... RETURNING ...`:
a fresh id, the caller's fields, `created_at = now`. -/
def dbInsert (userId : Nat) (amount : Int) (period now : Nat) (db : DbState) : Stake × DbState :=
  let stake : Stake := ⟨db.nextId, amount, period, userId, now⟩
  (stake, ⟨stake :: db.stakes, db.nextId + 1⟩)

/-- The `SELECT ... WHERE user_id = $1 ORDER BY created_at DESC LIMIT
$2 OFFSET $3` query with `offset = (page - 1) * limit`. -/
def dbList (userId page limit : Nat) (db : DbState) : List Stake :=
  (((db.stakes.filter (fun st => st.userId == userId)).drop ((page - 1) * limit)).take limit)

/-- The `for (attempt = 1; attempt <= 3; attempt++)` retry loop of
`DbService` (`init`, `createStake`, `getStakes`): a failing non-final
attempt waits `500 * attempt` ms and retries; the third failure throws
`DatabaseError`.  Returns the result, the number of attempts made and
the list of backoff waits.  Entered with `fuel = 3`, `attempt = 1`. -/
def dbAttempt (failAt : Nat → Bool) (good : β) : Nat → Nat → Except DbError β × Nat × List Nat
  | 0, attempt => (Except.error DbError.databaseError, attempt, [])
  | fuel + 1, attempt =>
    if failAt attempt then
      if fuel = 0 then (Except.error DbError.databaseError, attempt, [])
      else
        let r := dbAttempt failAt good fuel (attempt + 1)
        (r.1, r.2.1, 500 * attempt :: r.2.2)
    else (Except.ok good, attempt, [])

/-- `DbService.createStake`: the insert under the 3-attempt retry
loop. -/
def dbCreateStakeOp (failAt : Nat → Bool) (userId : Nat) (amount : Int) (period now : Nat)
    (db : DbState) : Except DbError (Stake × DbState) × Nat × List Nat :=
  dbAttempt failAt (dbInsert userId amount period now db) 3 1

/-- `DbService.getStakes`: the paginated select under the 3-attempt
retry loop. -/
def dbGetStakesOp (failAt : Nat → Bool) (userId page limit : Nat) (db : DbState) :
    Except DbError (List Stake) × Nat × List Nat :=
  dbAttempt failAt (dbList userId page limit db) 3 1

/-- Errors surfaced by the stake service: a rethrown `DatabaseError`,
or the generic `Failed to ...` error the catch block wraps everything
else in. -/
inductive SvcError where
  | database
  | generic
deriving DecidableEq, Repr

/-- `CreateStakeDto` (src/stake/types.ts). -/
structure CreateStakeDto where
  amount : Int
  period : Nat
deriving DecidableEq, Repr

/-- `PaginationDto` (src/stake/types.ts); `none` models an omitted
field, picked up by the `{ page = 1, limit = 20 }` defaults. -/
structure PaginationDto where
  page : Option Nat
  limit : Option Nat
deriving DecidableEq, Repr

/-- One formatted response item (`{ id, amount, period }`). -/
structure StakeItem where
  id : Nat
  amount : Int
  period : Nat
deriving DecidableEq, Repr

/-- The response formatting `stakes.map(stake => ({id, amount, period}))`. -/
def toItem (st : Stake) : StakeItem := ⟨st.id, st.amount, st.period⟩

/-- `createStake`'s success payload `{ success: true, stakeId }`. -/
structure CreateResult where
  success : Bool
  stakeId : Nat
deriving DecidableEq, Repr

/-- `getStakes`'s success payload `{ items, fromCache }`. -/
structure ReadResult where
  items : List StakeItem
  fromCache : Bool
deriving DecidableEq, Repr

/-- Failure injection for the write path: per-attempt oracles for
`db.init`, `db.createStake` and the `cacheStake` pipeline, plus flags
for the raw `redis.incr` and `redis.keys`/`redis.del` calls (which sit
outside any retry/absorb logic in the source). -/
structure WritePlan where
  initFail : Nat → Bool
  dbFail : Nat → Bool
  cacheFail : Nat → Bool
  incrFail : Bool
  invalidateFail : Bool

/-- The `redis.keys('user:{userId}:stakes:page:*')` + `redis.del`
invalidation: every page key of this owner disappears. -/
def invalidateUserPages (userId : Nat) (s : RedisState) : RedisState :=
  { s with
    pageList := fun k => if k.1 = userId then none else s.pageList k,
    pageExp := fun k => if k.1 = userId then none else s.pageExp k }

/-- `createStake` (src/stake/service.ts): init and insert via the
store client (a `DatabaseError` is rethrown as such), then
`cacheStake` (failures absorbed inside), then the raw counter `incr`
and page invalidation — an error in either of those is caught by the
outer catch and rewrapped as the generic failure. -/
def createStakeSvc (plan : WritePlan) (now userId : Nat) (dto : CreateStakeDto) (db : DbState)
    (s : RedisState) : Except SvcError CreateResult × DbState × RedisState :=
  match (dbAttempt plan.initFail () 3 1).1 with
  | Except.error _ => (Except.error SvcError.database, db, s)
  | Except.ok _ =>
    match (dbCreateStakeOp plan.dbFail userId dto.amount dto.period now db).1 with
    | Except.error _ => (Except.error SvcError.database, db, s)
    | Except.ok (stake, db') =>
      let s1 := (cacheStakeFn plan.cacheFail now stakeCacheConfig stake s).1
      if plan.incrFail then (Except.error SvcError.generic, db', s1)
      else
        let s2 := { s1 with
          counter := Function.update s1.counter userId (s1.counter userId + 1) }
        if plan.invalidateFail then (Except.error SvcError.generic, db', s2)
        else (Except.ok ⟨true, stake.id⟩, db', invalidateUserPages userId s2)

/-- Failure injection for the read path: a flag for the raw
`redis.lrange`, per-attempt oracles for `getCachedStake`, `db.init`,
`db.getStakes`, and the two absorbed `cacheStakes` loops. -/
structure ReadPlan where
  lrangeFail : Bool
  getFail : Nat → Bool
  initFail : Nat → Bool
  dbFail : Nat → Bool
  recCacheFail : Nat → Bool
  pageCacheFail : Nat → Bool

/-- The all-success read plan. -/
def noReadFail : ReadPlan :=
  ⟨false, fun _ => false, fun _ => false, fun _ => false, fun _ => false, fun _ => false⟩

/-- The fall-through part of `getStakes`: `db.init`, the store query
(a `DatabaseError` is rethrown as such), repopulation via
`cacheStakes`, and the `fromCache: false` response. -/
def getStakesSlow (plan : ReadPlan) (now userId page limit : Nat) (db : DbState)
    (s : RedisState) : Except SvcError ReadResult × RedisState :=
  match (dbAttempt plan.initFail () 3 1).1 with
  | Except.error _ => (Except.error SvcError.database, s)
  | Except.ok _ =>
    match (dbGetStakesOp plan.dbFail userId page limit db).1 with
    | Except.error _ => (Except.error SvcError.database, s)
    | Except.ok rows =>
      (Except.ok ⟨rows.map toItem, false⟩,
       (cacheStakesFn plan.recCacheFail plan.pageCacheFail now rows userId page limit
          stakeCacheConfig s).1)

/-- `getStakes` (src/stake/service.ts): read the cached page id list;
if non-empty, resolve every id via `getCachedStake` and serve from
cache exactly when every stake resolved and none is stale; otherwise
fall through to the store and repopulate.  A raw `lrange` error is
caught by the outer catch and rewrapped as the generic failure. -/
def getStakesSvc (plan : ReadPlan) (now userId : Nat) (pg : PaginationDto) (db : DbState)
    (s : RedisState) : Except SvcError ReadResult × RedisState :=
  let page := pg.page.getD 1
  let limit := pg.limit.getD 20
  if plan.lrangeFail then (Except.error SvcError.generic, s)
  else
    let cachedIds := lrangePage s now userId page limit
    if 0 < cachedIds.length then
      let results := cachedIds.map (fun i => (getCachedStakeFn plan.getFail now stakeCacheConfig i s).1)
      let stakes := results.filterMap Prod.fst
      let needsRefresh := results.any Prod.snd
      if stakes.length = cachedIds.length ∧ needsRefresh = false then
        (Except.ok ⟨stakes.map toItem, true⟩, s)
      else getStakesSlow plan now userId page limit db s
    else getStakesSlow plan now userId page limit db s

/-- `RateLimitConfig` from `src/utils/rate-limit.ts`. -/
structure RateLimitConfig where
  limit : Nat
  window : Nat
  identifier : String
deriving DecidableEq, Repr

/-- The `defaultRateLimits` table. -/
inductive RLConfigKey where
  | auth
  | stakeCreate
  | stakeGet
  | global
deriving DecidableEq, Repr

/-- `defaultRateLimits[configKey]`. -/
def defaultRateLimit : RLConfigKey → RateLimitConfig
  | RLConfigKey.auth => ⟨10, 60, "auth"⟩
  | RLConfigKey.stakeCreate => ⟨20, 60, "stake:create"⟩
  | RLConfigKey.stakeGet => ⟨60, 60, "stake:get"⟩
  | RLConfigKey.global => ⟨100, 60, "global"⟩

/-- The key choice in `checkRateLimit`:
`userId ? 'ratelimit:{id}:user:{userId}' : 'ratelimit:{id}:ip:{ip}'` —
JS truthiness, so a `userId` of `0` falls to the ip branch just like
`null`. -/
def rateSubject (ip : String) (userId : Option Int) : Subject :=
  match userId with
  | some u => if u != 0 then Subject.user u else Subject.ip ip
  | none => Subject.ip ip

/-- The Lua script's `redis.call('get', key)` (a logically expired key
reads as absent, and the following `incr` then restarts it at 1). -/
def rlRead (now : Nat) (s : RedisState) (k : RLKey) : Nat :=
  if expiredAt now (s.rlExp k) then 0 else (s.rlCount k).getD 0

/-- The atomic Lua script of `checkRateLimit`: read the count; if
`count >= limit` report exceeded without mutating; else `incr` and,
exactly when the new count is 1, `expire key window`.  Returns
`(count, exceeded, state)`. -/
def evalRateScript (now limitN window : Nat) (k : RLKey) (s : RedisState) :
    Nat × Bool × RedisState :=
  let count := rlRead now s k
  if limitN ≤ count then (count, true, s)
  else
    let newCount := count + 1
    (newCount, false,
      { s with
        rlCount := Function.update s.rlCount k (some newCount),
        rlExp :=
          if newCount = 1 then Function.update s.rlExp k (some (now + window * 1000))
          else s.rlExp })

/-- The outcome of `checkRateLimit`/`applyRateLimit`: a normal return,
or a thrown `RateLimitError` carrying the scope identifier
(`Rate limit exceeded for {identifier}`). -/
inductive RLOutcome where
  | ok
  | rateLimited (scope : String)
deriving DecidableEq, Repr

/-- `checkRateLimit` (src/utils/rate-limit.ts): run the atomic script
and throw `RateLimitError` on exceedance; if the store call itself
errors (`storeError`), the catch logs and returns normally
(fail-open), leaving the store untouched. -/
def checkRateLimitFn (storeError : Bool) (now : Nat) (ip : String) (userId : Option Int)
    (cfg : RateLimitConfig) (s : RedisState) : RLOutcome × RedisState :=
  let k : RLKey := (cfg.identifier, rateSubject ip userId)
  if storeError then (RLOutcome.ok, s)
  else
    let r := evalRateScript now cfg.limit cfg.window k s
    if r.2.1 then (RLOutcome.rateLimited cfg.identifier, r.2.2)
    else (RLOutcome.ok, r.2.2)

/-- The request headers `applyRateLimit` reads the client IP from. -/
structure RequestHeaders where
  cfConnectingIp : Option String
  xForwardedFor : Option String

/-- One step of the JS `||` chain: a missing or empty header is
falsy. -/
def headerOr (a : Option String) (b : String) : String :=
  match a with
  | some v => if v = "" then b else v
  | none => b

/-- `request.headers.get('CF-Connecting-IP') ||
request.headers.get('X-Forwarded-For') || 'unknown'`. -/
def clientIp (req : RequestHeaders) : String :=
  headerOr req.cfConnectingIp (headerOr req.xForwardedFor "unknown")

/-- `applyRateLimit` (src/utils/rate-limit.ts): resolve the client IP,
check the global limit first, then the endpoint-specific limit; a
thrown `RateLimitError` from the first check propagates and skips the
second.  `gErr`/`eErr` inject store errors into the two checks. -/
def applyRateLimitFn (gErr eErr : Bool) (now : Nat) (req : RequestHeaders)
    (userId : Option Int) (key : RLConfigKey) (s : RedisState) : RLOutcome × RedisState :=
  let ip := clientIp req
  let cfg := defaultRateLimit key
  match checkRateLimitFn gErr now ip userId (defaultRateLimit RLConfigKey.global) s with
  | (RLOutcome.rateLimited sc, s1) => (RLOutcome.rateLimited sc, s1)
  | (RLOutcome.ok, s1) => checkRateLimitFn eErr now ip userId cfg s1

/-- A sequence of rate-limit script executions against the same key,
at the given clock instants (used to state the counter invariant). -/
def stepSeq (limitN window : Nat) (k : RLKey) : List Nat → RedisState → RedisState
  | [], s => s
  | t :: ts, s => stepSeq limitN window k ts (evalRateScript t limitN window k s).2.2

/-! Helper lemmas. -/

lemma attemptLoop_attempts_le (failAt : Nat → Bool) (good bad : β) :
    ∀ fuel attempt, (attemptLoop failAt good bad fuel attempt).2 ≤ attempt + fuel := by
  intro fuel
  induction fuel with
  | zero => intro attempt; simp [attemptLoop]
  | succ n ih =>
    intro attempt
    by_cases h : failAt attempt
    · by_cases hn : n = 0
      · subst hn; simp [attemptLoop, h]
      · have hrec := ih (attempt + 1)
        simp only [attemptLoop, h, if_true, hn, if_false]
        omega
    · simp [attemptLoop, h]

lemma length_filterMap_eq_iff (g : α → Option γ) (l : List α) :
    (l.filterMap g).length = l.length ↔ ∀ a ∈ l, (g a).isSome = true := by
  induction l with
  | nil => simp
  | cons a l ih =>
    cases h : g a with
    | none =>
      have hle := List.length_filterMap_le g l
      simp [List.filterMap_cons, h]
      omega
    | some b => simp [List.filterMap_cons, h, ih]

lemma any_eq_false_iff (p : α → Bool) (l : List α) :
    l.any p = false ↔ ∀ a ∈ l, p a = false := by
  induction l with
  | nil => simp
  | cons a l ih => simp [List.any_cons, ih]

lemma head?_take_cons (a : α) (l : List α) (n : Nat) (h : 0 < n) :
    ((a :: l).take n).head? = some a := by
  obtain ⟨m, rfl⟩ : ∃ m, n = m + 1 := ⟨n - 1, by omega⟩
  simp [List.take_succ_cons]

lemma dbAttempt_cases (failAt : Nat → Bool) (good : β) :
    dbAttempt failAt good 3 1 =
      if failAt 1 = false then (Except.ok good, 1, [])
      else if failAt 2 = false then (Except.ok good, 2, [500])
      else if failAt 3 = false then (Except.ok good, 3, [500, 1000])
      else (Except.error DbError.databaseError, 3, [500, 1000]) := by
  cases h1 : failAt 1 <;> cases h2 : failAt 2 <;> cases h3 : failAt 3 <;>
    simp [dbAttempt, h1, h2, h3]

lemma dbAttempt_spec (failAt : Nat → Bool) (good : β) :
    (dbAttempt failAt good 3 1).2.1 ≤ 3 ∧
    (dbAttempt failAt good 3 1).2.2 =
      (List.range ((dbAttempt failAt good 3 1).2.1 - 1)).map (fun k => 500 * (k + 1)) ∧
    ((failAt 1 = true ∧ failAt 2 = true ∧ failAt 3 = true) ↔
      (dbAttempt failAt good 3 1).1 = Except.error DbError.databaseError) ∧
    ((dbAttempt failAt good 3 1).1 ≠ Except.error DbError.databaseError →
      (dbAttempt failAt good 3 1).1 = Except.ok good) := by
  rw [dbAttempt_cases]
  cases h1 : failAt 1 <;> cases h2 : failAt 2 <;> cases h3 : failAt 3 <;>
    simp [List.range_succ]

/-! Theorems about the claims. -/

/-- C8: `DbService.createStake` and `DbService.getStakes` each run
their store operation in a retry loop of at most 3 attempts; the
backoff waits between attempts are linear (`500 * attempt` ms); the
operation surfaces `DatabaseError` exactly when all three attempts
fail (the final failure is never silently swallowed), and otherwise
returns the operation's result. -/
theorem db_ops_retry_and_surface (failC failG : Nat → Bool) (userId : Nat) (amount : Int)
    (period now page limit : Nat) (db : DbState) :
    ((dbCreateStakeOp failC userId amount period now db).2.1 ≤ 3 ∧
     (dbCreateStakeOp failC userId amount period now db).2.2 =
       (List.range ((dbCreateStakeOp failC userId amount period now db).2.1 - 1)).map
         (fun k => 500 * (k + 1)) ∧
     ((failC 1 = true ∧ failC 2 = true ∧ failC 3 = true) ↔
       (dbCreateStakeOp failC userId amount period now db).1 =
         Except.error DbError.databaseError) ∧
     ((dbCreateStakeOp failC userId amount period now db).1 ≠
         Except.error DbError.databaseError →
       (dbCreateStakeOp failC userId amount period now db).1 =
         Except.ok (dbInsert userId amount period now db))) ∧
    ((dbGetStakesOp failG userId page limit db).2.1 ≤ 3 ∧
     (dbGetStakesOp failG userId page limit db).2.2 =
       (List.range ((dbGetStakesOp failG userId page limit db).2.1 - 1)).map
         (fun k => 500 * (k + 1)) ∧
     ((failG 1 = true ∧ failG 2 = true ∧ failG 3 = true) ↔
       (dbGetStakesOp failG userId page limit db).1 = Except.error DbError.databaseError) ∧
     ((dbGetStakesOp failG userId page limit db).1 ≠ Except.error DbError.databaseError →
       (dbGetStakesOp failG userId page limit db).1 =
         Except.ok (dbList userId page limit db))) :=
  ⟨dbAttempt_spec failC (dbInsert userId amount period now db),
   dbAttempt_spec failG (dbList userId page limit db)⟩

/-- Witness for C8: with every attempt failing, the create operation
makes exactly 3 attempts, waits 500 then 1000 ms, and surfaces the
store error. -/
theorem db_ops_retry_and_surface_witness :
    (dbCreateStakeOp (fun _ => true) 7 1000 12 0 ⟨[], 1⟩).2.1 ≤ 3 ∧
    (dbCreateStakeOp (fun _ => true) 7 1000 12 0 ⟨[], 1⟩).1 =
      Except.error DbError.databaseError ∧
    (dbGetStakesOp (fun n => n < 3) 7 1 20 ⟨[], 1⟩).1 = Except.ok [] :=
  ⟨(db_ops_retry_and_surface (fun _ => true) (fun n => n < 3) 7 1000 12 0 1 20 ⟨[], 1⟩).1.1,
   (db_ops_retry_and_surface (fun _ => true) (fun n => n < 3) 7 1000 12 0 1 20
      ⟨[], 1⟩).1.2.2.1.mp (by decide),
   (db_ops_retry_and_surface (fun _ => true) (fun n => n < 3) 7 1000 12 0 1 20
      ⟨[], 1⟩).2.2.2.2 (by rw [dbGetStakesOp, dbAttempt_cases]; simp)⟩

/-- C5: if the counter store itself errors during `checkRateLimit`,
the limiter fails open — the call returns normally (`ok`, so the
request proceeds), leaves the store untouched, and in particular never
turns the infrastructure error into a rate-limit failure. -/
theorem rateLimit_fail_open (now : Nat) (ip : String) (userId : Option Int)
    (cfg : RateLimitConfig) (s : RedisState) :
    checkRateLimitFn true now ip userId cfg s = (RLOutcome.ok, s) := rfl

/-- C9: a `userId` of `0` is falsy in `userId ? user-key : ip-key`, so
the rate counter is keyed by `ip:{origin}` exactly as for a `null`
`userId`, and `checkRateLimit` behaves identically on both — user id 0
shares its rate-limit state with unauthenticated traffic from the same
origin. -/
theorem rateLimit_userId_zero_keys_by_ip (err : Bool) (now : Nat) (ip : String)
    (cfg : RateLimitConfig) (s : RedisState) :
    rateSubject ip (some 0) = Subject.ip ip ∧
    rateSubject ip none = Subject.ip ip ∧
    checkRateLimitFn err now ip (some 0) cfg s = checkRateLimitFn err now ip none cfg s :=
  ⟨rfl, rfl, rfl⟩

lemma evalRateScript_count_le (now limitN window : Nat) (k : RLKey) (s : RedisState)
    (h : ∀ c, s.rlCount k = some c → c ≤ limitN) :
    ∀ c, (evalRateScript now limitN window k s).2.2.rlCount k = some c → c ≤ limitN := by
  intro c hc
  by_cases hx : limitN ≤ rlRead now s k
  · simp [evalRateScript, hx] at hc
    exact h c hc
  · simp [evalRateScript, hx, Function.update_same] at hc
    omega

lemma stepSeq_count_le (limitN window : Nat) (k : RLKey) :
    ∀ (times : List Nat) (s : RedisState),
      (∀ c, s.rlCount k = some c → c ≤ limitN) →
      ∀ c, (stepSeq limitN window k times s).rlCount k = some c → c ≤ limitN := by
  intro times
  induction times with
  | nil => intro s h; simpa [stepSeq] using h
  | cons t ts ih =>
    intro s h
    simp only [stepSeq]
    exact ih _ (evalRateScript_count_le t limitN window k s h)

/-- C2: one rate-limit script step that observes `count >= limit`
reports exceeded and leaves the whole store unchanged; a step that
observes `count < limit` reports not-exceeded, stores `count + 1`, and
sets the window expiry exactly when the new count is 1; and along any
sequence of steps on the same key starting from an absent counter, the
stored count never exceeds the limit. -/
theorem rateLimit_step_and_invariant (limitN window now : Nat) (k : RLKey) (s s0 : RedisState)
    (times : List Nat) (hfresh : s0.rlCount k = none) :
    (limitN ≤ rlRead now s k →
      evalRateScript now limitN window k s = (rlRead now s k, true, s)) ∧
    (rlRead now s k < limitN →
      (evalRateScript now limitN window k s).2.1 = false ∧
      (evalRateScript now limitN window k s).2.2.rlCount k = some (rlRead now s k + 1) ∧
      (evalRateScript now limitN window k s).2.2.rlExp k =
        (if rlRead now s k + 1 = 1 then some (now + window * 1000) else s.rlExp k)) ∧
    (∀ c, (stepSeq limitN window k times s0).rlCount k = some c → c ≤ limitN) := by
  refine ⟨?_, ?_, ?_⟩
  · intro hx
    simp [evalRateScript, hx]
  · intro hx
    have hx' : ¬ limitN ≤ rlRead now s k := by omega
    refine ⟨by simp [evalRateScript, hx'], by simp [evalRateScript, hx', Function.update_same], ?_⟩
    simp only [evalRateScript, hx', if_false]
    split <;> simp_all [Function.update_same]
  · refine stepSeq_count_le limitN window k times s0 ?_
    intro c hc
    rw [hfresh] at hc
    cases hc

/-- Witness for C2: with limit 2, a counter at 2 refuses and is left
unchanged; a first step on a fresh counter stores 1 and arms the
60-second window; after four steps from fresh the stored count is
still only 2. -/
theorem rateLimit_step_and_invariant_witness :
    evalRateScript 0 2 60 ("global", Subject.ip "o")
        { emptyRedis with
          rlCount := Function.update emptyRedis.rlCount ("global", Subject.ip "o") (some 2) } =
      (2, true,
       { emptyRedis with
         rlCount := Function.update emptyRedis.rlCount ("global", Subject.ip "o") (some 2) }) ∧
    (evalRateScript 0 2 60 ("global", Subject.ip "o") emptyRedis).2.2.rlCount
        ("global", Subject.ip "o") = some 1 ∧
    (evalRateScript 0 2 60 ("global", Subject.ip "o") emptyRedis).2.2.rlExp
        ("global", Subject.ip "o") = some 60000 ∧
    2 ≤ 2 :=
  ⟨(rateLimit_step_and_invariant 2 60 0 ("global", Subject.ip "o") _ emptyRedis [] rfl).1
     (by decide),
   ((rateLimit_step_and_invariant 2 60 0 ("global", Subject.ip "o") emptyRedis emptyRedis []
       rfl).2.1 (by decide)).2.1,
   ((rateLimit_step_and_invariant 2 60 0 ("global", Subject.ip "o") emptyRedis emptyRedis []
       rfl).2.1 (by decide)).2.2,
   (rateLimit_step_and_invariant 2 60 0 ("global", Subject.ip "o") emptyRedis emptyRedis
       [0, 0, 0, 0] rfl).2.2 2 (by decide)⟩

/-- C6: `applyRateLimit` evaluates the global limit first — if the
global counter for the request's subject is exhausted, the call fails
identifying scope `global` and the endpoint counter is untouched —
then the endpoint-specific limit, against the same subject, whose
exhaustion fails the call identifying the endpoint's scope. -/
theorem applyRateLimit_global_first (now : Nat) (req : RequestHeaders) (userId : Option Int)
    (key : RLConfigKey) (s : RedisState) :
    (100 ≤ rlRead now s ("global", rateSubject (clientIp req) userId) →
      applyRateLimitFn false false now req userId key s = (RLOutcome.rateLimited "global", s)) ∧
    (rlRead now s ("global", rateSubject (clientIp req) userId) < 100 →
      applyRateLimitFn false false now req userId key s =
        checkRateLimitFn false now (clientIp req) userId (defaultRateLimit key)
          (evalRateScript now 100 60 ("global", rateSubject (clientIp req) userId) s).2.2) ∧
    ((rlRead now s ("global", rateSubject (clientIp req) userId) < 100 ∧
      (defaultRateLimit key).limit ≤
        rlRead now (evalRateScript now 100 60 ("global", rateSubject (clientIp req) userId) s).2.2
          ((defaultRateLimit key).identifier, rateSubject (clientIp req) userId)) →
      (applyRateLimitFn false false now req userId key s).1 =
        RLOutcome.rateLimited (defaultRateLimit key).identifier) := by
  have hglob :
      checkRateLimitFn false now (clientIp req) userId (defaultRateLimit RLConfigKey.global) s =
        (if 100 ≤ rlRead now s ("global", rateSubject (clientIp req) userId) then
          (RLOutcome.rateLimited "global", s)
        else
          (RLOutcome.ok,
           (evalRateScript now 100 60 ("global", rateSubject (clientIp req) userId) s).2.2)) := by
    by_cases hx : 100 ≤ rlRead now s ("global", rateSubject (clientIp req) userId) <;>
      simp [checkRateLimitFn, evalRateScript, defaultRateLimit, hx]
  refine ⟨?_, ?_, ?_⟩
  · intro hx
    simp [applyRateLimitFn, hglob, hx]
  · intro hx
    have hx' : ¬ 100 ≤ rlRead now s ("global", rateSubject (clientIp req) userId) := by omega
    simp [applyRateLimitFn, hglob, hx']
  · rintro ⟨hx, he⟩
    have hx' : ¬ 100 ≤ rlRead now s ("global", rateSubject (clientIp req) userId) := by omega
    simp only [applyRateLimitFn]
    rw [hglob]
    simp only [if_neg hx']
    revert he
    generalize (evalRateScript now 100 60 ("global", rateSubject (clientIp req) userId) s).2.2 = S1
    intro he
    simp [checkRateLimitFn, evalRateScript, he]

/-- Witness for C6: an exhausted global counter (100) yields the
`global`-scoped failure with the store untouched; a fresh global
counter but exhausted `stake:create` counter (20) yields the
`stake:create`-scoped failure. -/
theorem applyRateLimit_global_first_witness :
    applyRateLimitFn false false 0 ⟨some "1.2.3.4", none⟩ none RLConfigKey.stakeCreate
        { emptyRedis with
          rlCount := Function.update emptyRedis.rlCount ("global", Subject.ip "1.2.3.4")
            (some 100) } =
      (RLOutcome.rateLimited "global",
       { emptyRedis with
         rlCount := Function.update emptyRedis.rlCount ("global", Subject.ip "1.2.3.4")
           (some 100) }) ∧
    (applyRateLimitFn false false 0 ⟨some "1.2.3.4", none⟩ none RLConfigKey.stakeCreate
        { emptyRedis with
          rlCount := Function.update emptyRedis.rlCount ("stake:create", Subject.ip "1.2.3.4")
            (some 20) }).1 =
      RLOutcome.rateLimited "stake:create" :=
  ⟨(applyRateLimit_global_first 0 ⟨some "1.2.3.4", none⟩ none RLConfigKey.stakeCreate _).1
     (by decide),
   (applyRateLimit_global_first 0 ⟨some "1.2.3.4", none⟩ none RLConfigKey.stakeCreate _).2.2
     ⟨by decide, by decide⟩⟩

lemma cacheStakeFn_nofail (now : Nat) (cfg : CacheConfig) (stake : Stake) (s : RedisState) :
    cacheStakeFn (fun _ => false) now cfg stake s = (cacheStakeWrites now cfg stake s, 1) := rfl

lemma getCachedStakeFn_nofail_fst (now : Nat) (cfg : CacheConfig) (i : Nat) (s : RedisState) :
    (getCachedStakeFn (fun _ => false) now cfg i s).1 = readCachedStake now cfg i s := rfl

lemma cacheStakesFn_nofail_nil (now userId page limit : Nat) (cfg : CacheConfig)
    (s : RedisState) :
    cacheStakesFn (fun _ => false) (fun _ => false) now [] userId page limit cfg s =
      (cachePageWrites now cfg userId page limit [] s, 1) := rfl

lemma dbAttempt_nofail (good : β) :
    dbAttempt (fun _ => false) good 3 1 = (Except.ok good, 1, []) := rfl

/-- C7: for a record class with stale-while-revalidate enabled (and a
non-zero stale extension), `get` after `put` of the same id returns
the record, with staleness computed exactly as
`(now - cachedAt) > ttl * 1000`: fresh (`isStale = false`) while at
most `ttl` seconds have elapsed, stale (`isStale = true`) once more
than `ttl` seconds have elapsed — as long as the read happens before
the physical eviction at `ttl + staleTime`. -/
theorem cached_stake_staleness (cfg : CacheConfig) (ext : Nat) (stake : Stake) (s : RedisState)
    (t0 t : Nat) (hswr : cfg.staleWhileRevalidate = true) (hst : cfg.staleTime = some ext)
    (hne : ext ≠ 0) (ht : t ≤ t0 + (cfg.ttl + ext) * 1000) :
    readCachedStake t cfg stake.id (cacheStakeFn (fun _ => false) t0 cfg stake s).1 =
      (some stake, decide (t - t0 > cfg.ttl * 1000)) ∧
    (t - t0 ≤ cfg.ttl * 1000 →
      (readCachedStake t cfg stake.id (cacheStakeFn (fun _ => false) t0 cfg stake s).1).2 =
        false) ∧
    (cfg.ttl * 1000 < t - t0 →
      (readCachedStake t cfg stake.id (cacheStakeFn (fun _ => false) t0 cfg stake s).1).2 =
        true) := by
  have hb : (ext != 0) = true := by simpa using hne
  have hexp : cacheExpireSeconds cfg = cfg.ttl + ext := by
    simp [cacheExpireSeconds, hst, hswr, hb]
  have hnotev : ¬ (t0 + (cfg.ttl + ext) * 1000 < t) := by omega
  have hmain : readCachedStake t cfg stake.id (cacheStakeFn (fun _ => false) t0 cfg stake s).1 =
      (some stake, decide (t - t0 > cfg.ttl * 1000)) := by
    rw [cacheStakeFn_nofail]
    simp [cacheStakeWrites, readCachedStake, Function.update_same, expiredAt, hexp, hswr, hnotev]
  refine ⟨hmain, ?_, ?_⟩
  · intro hfresh
    rw [hmain]
    simp only [decide_eq_false_iff_not]
    omega
  · intro hstale
    rw [hmain]
    simp only [decide_eq_true_eq]
    omega

/-- Witness for C7: for the stake record class (ttl 300s, stale
extension 300s), a read 100 s after the write is fresh and a read
400 s after the write is present-and-stale. -/
theorem cached_stake_staleness_witness :
    readCachedStake 100000 stakeCacheConfig 1
        (cacheStakeFn (fun _ => false) 0 stakeCacheConfig ⟨1, 5, 3, 7, 0⟩ emptyRedis).1 =
      (some ⟨1, 5, 3, 7, 0⟩, false) ∧
    readCachedStake 400000 stakeCacheConfig 1
        (cacheStakeFn (fun _ => false) 0 stakeCacheConfig ⟨1, 5, 3, 7, 0⟩ emptyRedis).1 =
      (some ⟨1, 5, 3, 7, 0⟩, true) :=
  ⟨(cached_stake_staleness stakeCacheConfig 300 ⟨1, 5, 3, 7, 0⟩ emptyRedis 0 100000 rfl rfl
      (by decide) (by decide)).1,
   (cached_stake_staleness stakeCacheConfig 300 ⟨1, 5, 3, 7, 0⟩ emptyRedis 0 400000 rfl rfl
      (by decide) (by decide)).1⟩

/-- C1, counterexample to the claim as stated: with the backing-store
insert succeeding but every Redis cache operation failing, the write
path does NOT return success.  `cacheStake`'s failures are absorbed,
but the raw `redis.incr` (and `redis.keys`/`redis.del`) calls inside
`createStake` are neither retried nor absorbed, so their failure
reaches the outer catch and the request fails with the generic
error. -/
theorem createStake_not_success_when_all_cache_ops_fail :
    (createStakeSvc ⟨fun _ => false, fun _ => false, fun _ => true, true, true⟩ 0 7 ⟨1000, 12⟩
        ⟨[], 1⟩ emptyRedis).1 = Except.error SvcError.generic := rfl

/-- C1 (amended): failures of the `cacheStake` record-cache write are
retried at most `MAX_CACHE_RETRIES + 1 = 3` times, then logged and
absorbed — for EVERY `cacheStake` failure schedule, a create-stake
request whose insert, counter increment and page invalidation succeed
returns success. -/
theorem createStake_absorbs_cacheStake_failures (cacheFail : Nat → Bool) (now userId : Nat)
    (dto : CreateStakeDto) (db : DbState) (s : RedisState) :
    (createStakeSvc ⟨fun _ => false, fun _ => false, cacheFail, false, false⟩ now userId dto db
        s).1 = Except.ok ⟨true, db.nextId⟩ ∧
    (cacheStakeFn cacheFail now stakeCacheConfig (dbInsert userId dto.amount dto.period now db).1
        s).2 ≤ 3 := by
  refine ⟨rfl, ?_⟩
  have h := attemptLoop_attempts_le cacheFail
    (cacheStakeWrites now stakeCacheConfig (dbInsert userId dto.amount dto.period now db).1 s) s
    (MAX_CACHE_RETRIES + 1) 0
  simpa [cacheStakeFn, MAX_CACHE_RETRIES] using h

/-- C10: `cacheStakes` called with an empty stakes array deletes the
page key and writes no id list and no expiry, so an empty
backing-store page is never cached; a subsequent read of that page
takes the slow path against the store (`fromCache = false`). -/
theorem empty_page_never_cached (now now2 userId page limit : Nat) (cfg : CacheConfig)
    (s : RedisState) (db : DbState) :
    ((cacheStakesFn (fun _ => false) (fun _ => false) now [] userId page limit cfg s).1).pageList
        (userId, page, limit) = none ∧
    ((cacheStakesFn (fun _ => false) (fun _ => false) now [] userId page limit cfg s).1).pageExp
        (userId, page, limit) = none ∧
    (getStakesSvc noReadFail now2 userId ⟨some page, some limit⟩ db
        (cacheStakesFn (fun _ => false) (fun _ => false) now [] userId page limit cfg s).1).1 =
      Except.ok ⟨(dbList userId page limit db).map toItem, false⟩ := by
  rw [cacheStakesFn_nofail_nil]
  refine ⟨?_, ?_, ?_⟩
  · simp [cachePageWrites, Function.update_same]
  · simp [cachePageWrites, Function.update_same]
  · simp [getStakesSvc, noReadFail, lrangePage, cachePageWrites, Function.update_same, expiredAt,
      lrangeStop, getStakesSlow, dbGetStakesOp, dbAttempt_nofail]

lemma createStakeSvc_nofail (now userId : Nat) (dto : CreateStakeDto) (db : DbState)
    (s : RedisState) :
    createStakeSvc ⟨fun _ => false, fun _ => false, fun _ => false, false, false⟩ now userId dto
        db s =
      (Except.ok ⟨true, db.nextId⟩,
       (dbInsert userId dto.amount dto.period now db).2,
       invalidateUserPages userId
         { cacheStakeWrites now stakeCacheConfig (dbInsert userId dto.amount dto.period now db).1
             s with
           counter := Function.update
             (cacheStakeWrites now stakeCacheConfig
                (dbInsert userId dto.amount dto.period now db).1 s).counter userId
             ((cacheStakeWrites now stakeCacheConfig
                 (dbInsert userId dto.amount dto.period now db).1 s).counter userId + 1) }) := rfl

/-- C3: a successful create-stake deletes every cached page entry of
the owner in the state returned alongside the success response, and a
subsequent read of the owner's first page returns the new record as
its first item (write-then-read-your-own-write). -/
theorem stake_write_then_read_own_write (now now2 userId : Nat) (dto : CreateStakeDto)
    (db : DbState) (s : RedisState) (limit : Nat) (res : Except SvcError CreateResult)
    (db' : DbState) (s' : RedisState) (hl : 0 < limit)
    (hrun : createStakeSvc ⟨fun _ => false, fun _ => false, fun _ => false, false, false⟩ now
        userId dto db s = (res, db', s')) :
    res = Except.ok ⟨true, db.nextId⟩ ∧
    (∀ p l, s'.pageList (userId, p, l) = none) ∧
    (getStakesSvc noReadFail now2 userId ⟨some 1, some limit⟩ db' s').1 =
      Except.ok ⟨(dbList userId 1 limit db').map toItem, false⟩ ∧
    ((dbList userId 1 limit db').map toItem).head? =
      some ⟨db.nextId, dto.amount, dto.period⟩ := by
  rw [createStakeSvc_nofail] at hrun
  injection hrun with h1 hrest
  injection hrest with h2 h3
  subst h1 h2 h3
  refine ⟨rfl, ?_, ?_, ?_⟩
  · intro p l
    simp [invalidateUserPages]
  · simp [getStakesSvc, noReadFail, lrangePage, invalidateUserPages, expiredAt, lrangeStop,
      getStakesSlow, dbGetStakesOp, dbAttempt_nofail]
  · have hfil : (dbInsert userId dto.amount dto.period now db).2.stakes.filter
        (fun st => st.userId == userId) =
        (dbInsert userId dto.amount dto.period now db).1 ::
          db.stakes.filter (fun st => st.userId == userId) := by
      simp [dbInsert]
    obtain ⟨m, rfl⟩ : ∃ m, limit = m + 1 := ⟨limit - 1, by omega⟩
    simp [dbList, hfil, List.take_succ_cons, dbInsert, toItem]

/-- Witness for C3: creating a stake for user 7 on an empty store then
reading page 1 (limit 20) yields the freshly created record, not
served from cache. -/
theorem stake_write_then_read_own_write_witness :
    0 < 20 ∧
    (createStakeSvc ⟨fun _ => false, fun _ => false, fun _ => false, false, false⟩ 0 7 ⟨1000, 12⟩
        ⟨[], 1⟩ emptyRedis).1 = Except.ok ⟨true, 1⟩ ∧
    (createStakeSvc ⟨fun _ => false, fun _ => false, fun _ => false, false, false⟩ 0 7 ⟨1000, 12⟩
        ⟨[], 1⟩ emptyRedis).2.2.pageList (7, 1, 20) = none ∧
    (getStakesSvc noReadFail 5 7 ⟨some 1, some 20⟩
        (createStakeSvc ⟨fun _ => false, fun _ => false, fun _ => false, false, false⟩ 0 7
          ⟨1000, 12⟩ ⟨[], 1⟩ emptyRedis).2.1
        (createStakeSvc ⟨fun _ => false, fun _ => false, fun _ => false, false, false⟩ 0 7
          ⟨1000, 12⟩ ⟨[], 1⟩ emptyRedis).2.2).1 =
      Except.ok ⟨[⟨1, 1000, 12⟩], false⟩ :=
  ⟨by decide,
   (stake_write_then_read_own_write 0 5 7 ⟨1000, 12⟩ ⟨[], 1⟩ emptyRedis 20 _ _ _ (by decide)
      rfl).1,
   (stake_write_then_read_own_write 0 5 7 ⟨1000, 12⟩ ⟨[], 1⟩ emptyRedis 20 _ _ _ (by decide)
      rfl).2.1 1 20,
   (stake_write_then_read_own_write 0 5 7 ⟨1000, 12⟩ ⟨[], 1⟩ emptyRedis 20 _ _ _ (by decide)
      rfl).2.2.1⟩

lemma hit_condition_iff (ids : List Nat) (f : Nat → Option Stake × Bool) :
    (0 < ids.length ∧ ((ids.map f).filterMap Prod.fst).length = ids.length ∧
      (ids.map f).any Prod.snd = false) ↔
    (ids ≠ [] ∧ ∀ i ∈ ids, (f i).1.isSome = true ∧ (f i).2 = false) := by
  constructor
  · rintro ⟨h0, hA, hB⟩
    refine ⟨List.length_pos.mp h0, ?_⟩
    intro i hi
    have hmem : f i ∈ ids.map f := List.mem_map_of_mem f hi
    refine ⟨?_, ?_⟩
    · have hall := (length_filterMap_eq_iff Prod.fst (ids.map f)).mp
        (hA.trans (List.length_map ids f).symm)
      exact hall _ hmem
    · exact (any_eq_false_iff Prod.snd (ids.map f)).mp hB _ hmem
  · rintro ⟨hne, hall⟩
    refine ⟨List.length_pos.mpr hne, ?_, ?_⟩
    · refine ((length_filterMap_eq_iff Prod.fst (ids.map f)).mpr ?_).trans (List.length_map ids f)
      intro a ha
      obtain ⟨i, hi, rfl⟩ := List.mem_map.mp ha
      exact (hall i hi).1
    · refine (any_eq_false_iff Prod.snd (ids.map f)).mpr ?_
      intro a ha
      obtain ⟨i, hi, rfl⟩ := List.mem_map.mp ha
      exact (hall i hi).2

/-- C4: a list-page read is served from cache and flagged as a hit
exactly when the cached page of ids is non-empty and every id resolves
to a present, non-stale cached record; in that case the response is
the resolved records and the store is untouched.  Otherwise — no (or
empty) cached page, partial resolution, or any staleness — the read
falls through to the backing store, is flagged as a miss, and
repopulates the record and listing caches via `cacheStakes`. -/
theorem stake_read_cache_hit_iff (now userId : Nat) (pg : PaginationDto) (db : DbState)
    (s : RedisState) (page limit : Nat) (ids : List Nat)
    (hpage : page = pg.page.getD 1) (hlimit : limit = pg.limit.getD 20)
    (hids : ids = lrangePage s now userId page limit) :
    ((∃ r, (getStakesSvc noReadFail now userId pg db s).1 = Except.ok r ∧ r.fromCache = true) ↔
      (ids ≠ [] ∧ ∀ i ∈ ids, (readCachedStake now stakeCacheConfig i s).1.isSome = true ∧
        (readCachedStake now stakeCacheConfig i s).2 = false)) ∧
    ((ids ≠ [] ∧ ∀ i ∈ ids, (readCachedStake now stakeCacheConfig i s).1.isSome = true ∧
        (readCachedStake now stakeCacheConfig i s).2 = false) →
      getStakesSvc noReadFail now userId pg db s =
        (Except.ok
          ⟨(ids.filterMap (fun i => (readCachedStake now stakeCacheConfig i s).1)).map toItem,
           true⟩, s)) ∧
    (¬(ids ≠ [] ∧ ∀ i ∈ ids, (readCachedStake now stakeCacheConfig i s).1.isSome = true ∧
        (readCachedStake now stakeCacheConfig i s).2 = false) →
      getStakesSvc noReadFail now userId pg db s =
        (Except.ok ⟨(dbList userId page limit db).map toItem, false⟩,
         (cacheStakesFn (fun _ => false) (fun _ => false) now (dbList userId page limit db)
            userId page limit stakeCacheConfig s).1)) := by
  subst hpage hlimit
  have hbridge := hit_condition_iff ids (fun i => readCachedStake now stakeCacheConfig i s)
  have hslow : getStakesSlow noReadFail now userId (pg.page.getD 1) (pg.limit.getD 20) db s =
      (Except.ok ⟨(dbList userId (pg.page.getD 1) (pg.limit.getD 20) db).map toItem, false⟩,
       (cacheStakesFn (fun _ => false) (fun _ => false) now
          (dbList userId (pg.page.getD 1) (pg.limit.getD 20) db) userId (pg.page.getD 1)
          (pg.limit.getD 20) stakeCacheConfig s).1) := by
    simp [getStakesSlow, dbGetStakesOp, dbAttempt_nofail, noReadFail]
  have heval : getStakesSvc noReadFail now userId pg db s =
      (if 0 < ids.length ∧
          ((ids.map (fun i => readCachedStake now stakeCacheConfig i s)).filterMap
              Prod.fst).length = ids.length ∧
          (ids.map (fun i => readCachedStake now stakeCacheConfig i s)).any Prod.snd = false then
        (Except.ok
          ⟨((ids.map (fun i => readCachedStake now stakeCacheConfig i s)).filterMap
              Prod.fst).map toItem, true⟩, s)
      else getStakesSlow noReadFail now userId (pg.page.getD 1) (pg.limit.getD 20) db s) := by
    simp only [getStakesSvc, noReadFail, getCachedStakeFn_nofail_fst, ← hids,
      Bool.false_eq_true, if_false]
    by_cases h0 : 0 < ids.length
    · by_cases h1 : ((ids.map (fun i => readCachedStake now stakeCacheConfig i s)).filterMap
            Prod.fst).length = ids.length ∧
          (ids.map (fun i => readCachedStake now stakeCacheConfig i s)).any Prod.snd = false
      · rw [if_pos h0, if_pos h1, if_pos (And.intro h0 h1)]
      · rw [if_pos h0, if_neg h1, if_neg (by tauto)]
    · rw [if_neg h0, if_neg (by tauto)]
  by_cases hc : 0 < ids.length ∧
      ((ids.map (fun i => readCachedStake now stakeCacheConfig i s)).filterMap Prod.fst).length =
        ids.length ∧
      (ids.map (fun i => readCachedStake now stakeCacheConfig i s)).any Prod.snd = false
  · have hhit := hbridge.mp hc
    have heqHit : getStakesSvc noReadFail now userId pg db s =
        (Except.ok
          ⟨((ids.map (fun i => readCachedStake now stakeCacheConfig i s)).filterMap
              Prod.fst).map toItem, true⟩, s) := by
      rw [heval, if_pos hc]
    have hstakes : (ids.map (fun i => readCachedStake now stakeCacheConfig i s)).filterMap
        Prod.fst = ids.filterMap (fun i => (readCachedStake now stakeCacheConfig i s).1) := by
      rw [List.filterMap_map]
      rfl
    refine ⟨?_, ?_, ?_⟩
    · constructor
      · intro _
        exact hhit
      · intro _
        exact ⟨⟨((ids.map (fun i => readCachedStake now stakeCacheConfig i s)).filterMap
            Prod.fst).map toItem, true⟩, by rw [heqHit], rfl⟩
    · intro _
      rw [heqHit, hstakes]
    · intro hn
      exact absurd hhit hn
  · have heqMiss : getStakesSvc noReadFail now userId pg db s =
        (Except.ok ⟨(dbList userId (pg.page.getD 1) (pg.limit.getD 20) db).map toItem, false⟩,
         (cacheStakesFn (fun _ => false) (fun _ => false) now
            (dbList userId (pg.page.getD 1) (pg.limit.getD 20) db) userId (pg.page.getD 1)
            (pg.limit.getD 20) stakeCacheConfig s).1) := by
      rw [heval, if_neg hc, hslow]
    refine ⟨?_, ?_, ?_⟩
    · constructor
      · rintro ⟨r, hr, hrc⟩
        have h1 : (getStakesSvc noReadFail now userId pg db s).1 =
            Except.ok ⟨(dbList userId (pg.page.getD 1) (pg.limit.getD 20) db).map toItem,
              false⟩ := by
          rw [heqMiss]
        rw [h1] at hr
        injection hr with hr'
        rw [← hr'] at hrc
        simp at hrc
      · intro hh
        exact absurd (hbridge.mpr hh) hc
    · intro hh
      exact absurd (hbridge.mpr hh) hc
    · intro _
      exact heqMiss

/-- Witness for C4: a page `[1]` whose only id resolves to a fresh
cached record is served from cache with the store untouched; on an
empty cache the same read is a miss served from the (empty) store. -/
theorem stake_read_cache_hit_iff_witness :
    getStakesSvc noReadFail 0 7 ⟨some 1, some 2⟩ ⟨[], 1⟩
        { emptyRedis with
          pageList := Function.update emptyRedis.pageList (7, 1, 2) (some [1]),
          stakeHash := Function.update emptyRedis.stakeHash 1 (some ⟨⟨1, 5, 3, 7, 0⟩, 0⟩) } =
      (Except.ok ⟨[⟨1, 5, 3⟩], true⟩,
       { emptyRedis with
         pageList := Function.update emptyRedis.pageList (7, 1, 2) (some [1]),
         stakeHash := Function.update emptyRedis.stakeHash 1 (some ⟨⟨1, 5, 3, 7, 0⟩, 0⟩) }) ∧
    (getStakesSvc noReadFail 0 7 ⟨some 1, some 20⟩ ⟨[], 1⟩ emptyRedis).1 =
      Except.ok ⟨[], false⟩ :=
  ⟨(stake_read_cache_hit_iff 0 7 ⟨some 1, some 2⟩ ⟨[], 1⟩
      { emptyRedis with
        pageList := Function.update emptyRedis.pageList (7, 1, 2) (some [1]),
        stakeHash := Function.update emptyRedis.stakeHash 1 (some ⟨⟨1, 5, 3, 7, 0⟩, 0⟩) }
      1 2 [1] rfl rfl (by decide)).2.1 (by decide),
   congrArg Prod.fst
     ((stake_read_cache_hit_iff 0 7 ⟨some 1, some 20⟩ ⟨[], 1⟩ emptyRedis 1 20 [] rfl rfl
        (by decide)).2.2 (by decide))⟩

end Staking
